import Mathlib

/-!
Verification development for the SurfCoach IA repository: a shallow embedding
of its frame-sampling and analysis-request pipeline, with theorems checking
the natural-language specification against the code.

Conventions of the embedding:
. JavaScript strings are embedded as List Char; numbers that the claims treat
  exactly (durations, timestamps, scores) are embedded as rationals.
. Asynchronous functions returning a promise are embedded as total functions
  returning Except: a rejected promise is the error constructor.
. The external model call and the platform JSON parser are opaque collaborators;
  they enter the embedding as function parameters so that theorems quantify
  over their behaviour.
-/

/-- Left and right curly brace characters, written by code point. -/
def lbrace : Char := Char.ofNat 123

/-- Closing curly brace character. -/
def rbrace : Char := Char.ofNat 125

/-- Whitespace predicate used by the embedding of the JavaScript trim method. -/
def isJsWs (c : Char) : Bool := c == ' ' || c == '\t' || c == '\n' || c == '\r'

/-- Embedding of String.prototype.trim: drop whitespace from both ends. -/
def jsTrim (l : List Char) : List Char :=
  ((l.dropWhile isJsWs).reverse.dropWhile isJsWs).reverse

/-- Helper for jsIndexOf carrying the current index. -/
def jsIndexOfAux (c : Char) : List Char → Nat → Option Nat
  | [], _ => none
  | a :: t, i => if a == c then some i else jsIndexOfAux c t (i + 1)

/-- Embedding of String.prototype.indexOf for a single character; none stands
for the sentinel -1. -/
def jsIndexOf (c : Char) (l : List Char) : Option Nat := jsIndexOfAux c l 0

/-- Embedding of String.prototype.lastIndexOf for a single character. -/
def jsLastIndexOf (c : Char) (l : List Char) : Option Nat :=
  match jsIndexOf c l.reverse with
  | none => none
  | some i => some (l.length - 1 - i)

/-- Embedding of String.prototype.substring with the argument-swapping
behaviour of JavaScript when the start exceeds the end. -/
def jsSubstring (l : List Char) (a b : Nat) : List Char :=
  if a ≤ b then (l.take b).drop a else (l.take a).drop b

/-- Boolean prefix test on character lists. -/
def isPrefixOfC : List Char → List Char → Bool
  | [], _ => true
  | _ :: _, [] => false
  | a :: as, b :: bs => a == b && isPrefixOfC as bs

/-- Embedding of String.prototype.includes: does the needle occur as a
contiguous substring of the haystack. -/
def containsSub (needle : List Char) : List Char → Bool
  | [] => isPrefixOfC needle []
  | hay@(_ :: t) => isPrefixOfC needle hay || containsSub needle t

/-- Embedding of String.prototype.toLowerCase, character by character. -/
def toLowerL (l : List Char) : List Char := l.map Char.toLower

/- Data model, from src/types.ts. -/

/-- One posture radar entry, from the PostureMetric interface in types.ts. -/
structure PostureMetric where
  subject : List Char
  value : ℚ
  fullMark : ℚ
deriving DecidableEq

/-- One telemetry point, from the TelemetryData interface in types.ts. -/
structure TelemetryData where
  time : List Char
  flow : ℚ
  power : ℚ
deriving DecidableEq

/-- One detected maneuver, from the Maneuver interface in types.ts. -/
structure Maneuver where
  time : List Char
  name : List Char
  execution : ℚ
deriving DecidableEq

/-- One training drill, from the Drill interface in types.ts. -/
structure Drill where
  title : List Char
  description : List Char
  focus : List Char
deriving DecidableEq

/-- The analysis result record, from the AnalysisResult interface in types.ts. -/
structure AnalysisResult where
  score : ℚ
  summary : List Char
  posture : List PostureMetric
  telemetry : List TelemetryData
  maneuvers : List Maneuver
  drills : List Drill
deriving DecidableEq

/-- A result value with every field empty, standing for the object the
platform JSON parser yields for an object literal with no fields. -/
def emptyAnalysis : AnalysisResult :=
  ⟨0, [], [], [], [], []⟩

/-- Failure taxonomy of the analysis pipeline, named as in the specification;
each classifier below maps the branches of the corresponding source catch
block onto these kinds. -/
inductive FailureKind where
  | contentBlocked
  | rateLimited
  | credentialInvalid
  | transientFailure
  | malformedResponse
  | emptyResponse
deriving DecidableEq

/- Frame sampler, from the extractFrames functions of the App variants. -/

/-- Mime type of every sampled frame; the source passes the literal image/jpeg
to every frame part. -/
def jpegMime : List Char := "image/jpeg".toList

/-- One sampled still frame: the object pushed into the frames array by
extractFrames, with its seek timestamp made explicit. -/
structure SampledFrame where
  timestampSeconds : ℚ
  imageBytes : List Char
  mimeType : List Char
deriving DecidableEq

/-- The seek timestamps chosen by every extractFrames variant: for index i in
0..frameCount-1 the source computes duration / (frameCount + 1) * (i + 1). -/
def frameTimestamps (duration : ℚ) (frameCount : Nat) : List ℚ :=
  (List.range frameCount).map
    (fun i : Nat => duration / ((frameCount : ℚ) + 1) * ((i : ℚ) + 1))

/-- How the metadata-loading phase of the video element can end: the
onloadedmetadata handler fires, the onerror handler fires, or the global
watchdog timeout fires first. -/
inductive LoadOutcome where
  | metadataLoaded
  | loadError
  | timedOut
deriving DecidableEq

/-- Abstract video decode surface: how loading ends, the reported duration,
and what capturing a frame at a given seek timestamp produces; none models
the draw or encode step throwing inside the capture loop. -/
structure VideoModel where
  load : LoadOutcome
  duration : ℚ
  capture : ℚ → Option (List Char)

/-- Error message used by the embedding for an exception thrown inside the
capture loop. -/
def captureErrMsg : List Char := "capture exception".toList

/-- The sequential seek-and-capture loop of extractFrames: one frame is pushed
per timestamp, and any capture exception rejects the whole promise. -/
def captureFrames (v : VideoModel) : List ℚ → Except (List Char) (List SampledFrame)
  | [] => .ok []
  | t :: ts =>
    match v.capture t with
    | none => .error captureErrMsg
    | some bytes =>
      match captureFrames v ts with
      | .ok rest => .ok (⟨t, bytes, jpegMime⟩ :: rest)
      | .error e => .error e

/-- Error messages for the metadata failure paths of extractFrames. -/
def loadErrMsg : List Char := "Erro ao carregar vídeo.".toList

/-- Error message of the watchdog timeout path of extractFrames. -/
def timeoutMsg : List Char := "Timeout no processamento do vídeo.".toList

/-- Core embedding of extractFrames, common to the App variants: resolve with
one frame per timestamp, or reject on a load error, on the watchdog timeout,
or on a capture exception. -/
def extractFramesCore (v : VideoModel) (frameCount : Nat) :
    Except (List Char) (List SampledFrame) :=
  match v.load with
  | .loadError => .error loadErrMsg
  | .timedOut => .error timeoutMsg
  | .metadataLoaded => captureFrames v (frameTimestamps v.duration frameCount)

/-- Trace of one sampling call recording, besides its outcome, whether the
temporary object URL was revoked before the promise settled. -/
structure SampleRun where
  result : Except (List Char) (List SampledFrame)
  urlRevoked : Bool

/-- Embedding of the extractFrames variant at part_002 lines 549-596 (12
frames at duration / 13 * (i + 1)), with release tracking: the timeout
handler revokes the URL before rejecting and the success path revokes before
resolving, but the onerror handler and the catch around the capture loop
reject without revoking. -/
def extractFramesP2 (v : VideoModel) : SampleRun :=
  match v.load with
  | .timedOut => ⟨.error timeoutMsg, true⟩
  | .loadError => ⟨.error loadErrMsg, false⟩
  | .metadataLoaded =>
    match captureFrames v (frameTimestamps v.duration 12) with
    | .ok fs => ⟨.ok fs, true⟩
    | .error e => ⟨.error e, false⟩

/- Analysis requester, from the performAnalysis and analyzeSurfVideo
variants. -/

/-- Error classifier of part_000 performAnalysis, lines 127-132: after the
retry is exhausted the error message is matched case-SENSITIVELY; the literal
text Resource has been exhausted selects the rate-limit message, the text
safety selects the content-blocked message, and anything else selects the
generic message, which the specification taxonomy calls TransientFailure. -/
def classifyP0 (msg : List Char) : FailureKind :=
  if containsSub ("Resource has been exhausted".toList) msg then .rateLimited
  else if containsSub ("safety".toList) msg then .contentBlocked
  else .transientFailure

/-- Keyword test of the content-blocked branch of part_003 lines 434-435. -/
def p3Blocked (s : List Char) : Bool :=
  containsSub ("safety".toList) s || containsSub ("blocked".toList) s ||
    containsSub ("candidate".toList) s

/-- Keyword test of the rate-limited branch of part_003 line 436: the source
checks the substrings quota and limit. -/
def p3Rate (s : List Char) : Bool :=
  containsSub ("quota".toList) s || containsSub ("limit".toList) s

/-- Keyword test of the credential branch of part_003 line 438: the source
checks the substrings api key and unauthorized. -/
def p3Cred (s : List Char) : Bool :=
  containsSub ("api key".toList) s || containsSub ("unauthorized".toList) s

/-- Error classifier of part_003 performAnalysis, lines 428-446: the raw error
text is lowercased and matched by substring against the three keyword groups
in order; any other text falls through to the generic branch, which the
specification taxonomy calls TransientFailure. -/
def classifyP3 (err : List Char) : FailureKind :=
  let s := toLowerL err
  if p3Blocked s then .contentBlocked
  else if p3Rate s then .rateLimited
  else if p3Cred s then .credentialInvalid
  else .transientFailure

/-- Outcome of one run of the part_000 performAnalysis: the COMPLETED state
with a parsed result, or the ERROR state whose message corresponds to a
failure kind under classifyP0. -/
inductive P0Result where
  | completed (r : AnalysisResult)
  | errorState (kind : FailureKind)
deriving DecidableEq

/-- Embedding of part_000 performAnalysis, lines 23-137.  One try-block
execution (model call, empty check, JSON parse) is abstracted as attempt n,
the outcome of the n-th execution.  On any caught error with retryCount < 1
the source recursively re-invokes itself with retryCount + 1; otherwise it
classifies the error and enters the ERROR state.  The second component counts
how many attempts were made. -/
def performAnalysisP0 (attempt : Nat → Except (List Char) AnalysisResult) :
    Nat → P0Result × Nat
  | retryCount =>
    match attempt retryCount with
    | .ok r => (.completed r, 1)
    | .error e =>
      if h : retryCount < 1 then
        let out := performAnalysisP0 attempt (retryCount + 1)
        (out.1, out.2 + 1)
      else (.errorState (classifyP0 e), 1)
termination_by rc => 1 - rc
decreasing_by omega

/-- Embedding of the JSON slicing step shared by the App.tsx variant at lines
443-452 and part_003 lines 411-417: trim the raw text, locate the first
opening brace and the last closing brace, and keep the characters between
them inclusively when both exist. -/
def sliceJson (raw : List Char) : List Char :=
  let t := jsTrim raw
  match jsIndexOf lbrace t, jsLastIndexOf rbrace t with
  | some i, some j => jsSubstring t i (j + 1)
  | _, _ => t

/-- Outcome of one run of a performAnalysis variant that stores a message in
the error state. -/
inductive P3Result where
  | completed (r : AnalysisResult)
  | errorState (msg : List Char)
deriving DecidableEq

/-- Message thrown by part_003 line 406 when the response text is empty. -/
def p3EmptyMsg : List Char :=
  "A IA não conseguiu processar os quadros. Tente um vídeo com o surfista mais próximo da câmera.".toList

/-- Message thrown by part_003 line 425 when parsing the sliced text fails. -/
def p3MalformedMsg : List Char :=
  "Falha na sincronização de dados. O motor neural gerou uma resposta malformada.".toList

/-- Default message of the part_003 catch block, line 431. -/
def p3DefaultMsg : List Char :=
  "Erro no motor neural. Certifique-se de que o vídeo mostra claramente as manobras.".toList

/-- Message shown by the part_003 catch block for each keyword group,
lines 434-442: the classifier branches pick fixed texts, and the fallback
surfaces the message carried by the error itself when it is nonempty. -/
def p3CatchMessage (errMsg : List Char) : List Char :=
  let s := toLowerL (("Error: ".toList) ++ errMsg)
  if p3Blocked s then
    "Análise interrompida por filtros de segurança. Tente um vídeo puramente esportivo.".toList
  else if p3Rate s then
    "Limite de análise atingido para este período. Tente novamente em alguns instantes.".toList
  else if p3Cred s then
    "Chave de acesso inválida ou expirada. Verifique as configurações.".toList
  else if errMsg.isEmpty then p3DefaultMsg
  else errMsg

/-- Embedding of part_003 performAnalysis, lines 316-447 (the thinking-budget
variant).  The external call is call 0 of the call sequence, producing either
a thrown error or an optional response text; parse stands for the platform
JSON parser.  The second component counts external calls: this variant has no
retry, so it is always 1. -/
def performAnalysisP3
    (call : Nat → Except (List Char) (Option (List Char)))
    (parse : List Char → Option AnalysisResult) : P3Result × Nat :=
  match call 0 with
  | .error e => (.errorState (p3CatchMessage e), 1)
  | .ok textOpt =>
    let rawText := textOpt.getD []
    if rawText.isEmpty then (.errorState (p3CatchMessage p3EmptyMsg), 1)
    else
      match parse (sliceJson rawText) with
      | some r => (.completed r, 1)
      | none => (.errorState (p3CatchMessage p3MalformedMsg), 1)

/-- The falsiness test JavaScript applies to response.text in the sources:
an absent text and an empty text are both treated as no text. -/
def textOrNone (t : Option (List Char)) : Option (List Char) :=
  match t with
  | none => none
  | some s => if s.isEmpty then none else some s

/-- Embedding of analyzeSurfVideo from src/services/geminiService.ts lines
14-102: a falsy response text throws the empty-response error before any
parsing; otherwise the platform parser runs on the text and a parse failure
propagates as a syntax error. -/
def analyzeSurfVideo
    (callResult : Except (List Char) (Option (List Char)))
    (parse : List Char → Option AnalysisResult) :
    Except (List Char) AnalysisResult :=
  match callResult with
  | .error e => .error e
  | .ok t =>
    match textOrNone t with
    | none => .error ("Empty response from AI".toList)
    | some txt =>
      match parse txt with
      | some r => .ok r
      | none => .error ("SyntaxError: Unexpected token".toList)

/-- The object-literal text substituted for a falsy response by part_002 line
355 and part_003 line 124, written by code point to stand for a brace pair. -/
def braceEmpty : List Char := [lbrace, rbrace]

/-- Catch-block message of the part_003 flash variant, lines 127-136. -/
def flashCatchMsg (errMsg : List Char) : List Char :=
  if containsSub ("API Key".toList) errMsg || containsSub ("not found".toList) errMsg then
    "O motor de IA precisa ser ativado. Clique no botão abaixo para conectar.".toList
  else "Erro ao analisar o vídeo. Tente um clipe mais curto.".toList

/-- Embedding of part_003 performAnalysis, lines 77-137 (the flash variant):
line 124 parses the response text with the brace pair substituted when the
text is falsy, so an empty response flows into the parser instead of
failing. -/
def performAnalysisFlash
    (callResult : Except (List Char) (Option (List Char)))
    (parse : List Char → Option AnalysisResult) : P3Result :=
  match callResult with
  | .error e => .errorState (flashCatchMsg e)
  | .ok t =>
    let txt := (textOrNone t).getD braceEmpty
    match parse txt with
    | some r => .completed r
    | none => .errorState (flashCatchMsg ("SyntaxError: Unexpected token".toList))

/- Upload routing, from handleFileUpload of the App.tsx variant at lines
793-825. -/

/-- One inline part of the multimodal request: base64 payload plus mime
type, as built by the sources inlineData objects. -/
structure InlinePart where
  data : List Char
  mimeType : List Char
deriving DecidableEq

/-- The uploaded file as the handler sees it: byte size, base64 payload,
declared mime type, and the decode surface its object URL backs. -/
structure FileModel where
  size : Nat
  base64 : List Char
  mimeType : List Char
  video : VideoModel

/-- The inline part built from one sampled frame. -/
def frameToPart (f : SampledFrame) : InlinePart := ⟨f.imageBytes, f.mimeType⟩

/-- Embedding of handleFileUpload from App.tsx lines 793-825: files larger
than 10 * 1024 * 1024 bytes are routed through extractFrames (12 frames in
this variant) and the request carries the frame parts; smaller files are read
whole and the request carries exactly one inline part with the file payload
and the file mime type. -/
def handleFileUploadParts (file : FileModel) : Except (List Char) (List InlinePart) :=
  if file.size > 10 * 1024 * 1024 then
    match extractFramesCore file.video 12 with
    | .ok fs => .ok (fs.map frameToPart)
    | .error e => .error e
  else .ok [⟨file.base64, file.mimeType⟩]

/- Concrete inputs used by witnesses and counterexamples. -/

/-- A result value with fields empty except an 8.5 score, standing for the
parsed object of the specification example. -/
def scoreResult : AnalysisResult := ⟨17 / 2, [], [], [], [], []⟩

/-- Boolean success test on an Except value. -/
def isOkE {ε α : Type} : Except ε α → Bool
  | .ok _ => true
  | .error _ => false

/-- A healthy concrete decode surface: metadata loads, duration 4 seconds,
every seek captures the same payload. -/
def vGood : VideoModel := ⟨.metadataLoaded, 4, fun _ => some ("x".toList)⟩

/-- The frame list vGood yields when sampled at three timestamps. -/
def framesW : List SampledFrame :=
  (frameTimestamps 4 3).map (fun t => ⟨t, "x".toList, jpegMime⟩)

/-- A decode surface whose capture loop throws at the first seek. -/
def vCaptureFail : VideoModel := ⟨.metadataLoaded, 10, fun _ => none⟩

/-- A decode surface whose watchdog timeout fires. -/
def vTimeout : VideoModel := ⟨.timedOut, 5, fun _ => none⟩

/-- An attempt sequence failing once transiently, then succeeding. -/
def attemptW : Nat → Except (List Char) AnalysisResult :=
  fun n => if n = 0 then .error ("network glitch".toList) else .ok emptyAnalysis

/-- The rate-limit error text of the specification example. -/
def rateLimitedText : List Char := "Resource has been exhausted".toList

/-- An attempt sequence that always fails with the rate-limit error text. -/
def attemptRateLimited : Nat → Except (List Char) AnalysisResult :=
  fun _ => .error rateLimitedText

/-- Wrapping text before the JSON body in the specification example. -/
def prefixW : List Char := "prefix ".toList

/-- The embedded JSON object of the specification example, with its braces
attached by code point. -/
def objW : List Char := [lbrace] ++ "\"score\":8.5".toList ++ [rbrace]

/-- Wrapping text after the JSON body in the specification example. -/
def suffixW : List Char := " suffix".toList

/-- A platform parser pinned to the one fact the example needs: it parses
exactly the embedded object. -/
def parseW : List Char → Option AnalysisResult :=
  fun l => if l == objW then some scoreResult else none

/-- A response text holding no brace at all. -/
def noJsonText : List Char := "no json here".toList

/-- A platform parser that rejects every text. -/
def parseNone : List Char → Option AnalysisResult := fun _ => none

/-- A platform parser pinned to the documented behaviour of JSON.parse on an
empty object literal: the brace pair parses to an object with no fields. -/
def parseBraceStub : List Char → Option AnalysisResult :=
  fun l => if l == braceEmpty then some emptyAnalysis else none

/-- A small uploaded file, under the 10 MiB routing threshold. -/
def fileSmall : FileModel := ⟨5, "AAAA".toList, "video/mp4".toList, vGood⟩

/- Supporting lemmas. -/

/-- Each timestamp is positive and strictly below the duration. -/
theorem frameTimestamps_mem_bounds (D : ℚ) (N : Nat) (hD : 0 < D) :
    ∀ t ∈ frameTimestamps D N, 0 < t ∧ t < D := by
  intro t ht
  rw [frameTimestamps, List.mem_map] at ht
  obtain ⟨i, hi, rfl⟩ := ht
  rw [List.mem_range] at hi
  have hN1 : (0 : ℚ) < (N : ℚ) + 1 := by positivity
  constructor
  · have h1 : (0 : ℚ) < (i : ℚ) + 1 := by positivity
    exact mul_pos (div_pos hD hN1) h1
  · rw [div_mul_eq_mul_div, div_lt_iff₀ hN1]
    have hlt : ((i : ℚ) + 1) < (N : ℚ) + 1 := by
      exact_mod_cast Nat.succ_lt_succ hi
    exact mul_lt_mul_of_pos_left hlt hD

/-- The timestamp list is strictly increasing. -/
theorem frameTimestamps_pairwise (D : ℚ) (N : Nat) (hD : 0 < D) :
    List.Pairwise (· < ·) (frameTimestamps D N) := by
  rw [frameTimestamps, List.pairwise_map]
  have hpos : (0 : ℚ) < D / ((N : ℚ) + 1) := by positivity
  refine (List.pairwise_lt_range N).imp ?_
  intro a b hab
  have hcast : ((a : ℚ) + 1) < (b : ℚ) + 1 := by exact_mod_cast Nat.succ_lt_succ hab
  exact mul_lt_mul_of_pos_left hcast hpos

/-- A successful capture loop yields one frame per timestamp, in timestamp
order, each carrying the JPEG mime type. -/
theorem captureFrames_ok (v : VideoModel) :
    ∀ (ts : List ℚ) (fs : List SampledFrame), captureFrames v ts = .ok fs →
      fs.length = ts.length ∧ fs.map (fun f => f.timestampSeconds) = ts ∧
        ∀ f ∈ fs, f.mimeType = jpegMime := by
  intro ts
  induction ts with
  | nil =>
    intro fs h
    simp only [captureFrames] at h
    cases h
    simp
  | cons t ts ih =>
    intro fs h
    simp only [captureFrames] at h
    cases hc : v.capture t with
    | none => rw [hc] at h; cases h
    | some bytes =>
      rw [hc] at h
      cases hr : captureFrames v ts with
      | error e => rw [hr] at h; cases h
      | ok rest =>
        rw [hr] at h
        cases h
        obtain ⟨h1, h2, h3⟩ := ih rest hr
        refine ⟨by simp [h1], by simp [h2], ?_⟩
        intro f hf
        rcases List.mem_cons.mp hf with rfl | hf
        · rfl
        · exact h3 f hf

/- Claim theorems. -/

/-- C1: for every duration D > 0 and frameCount N > 0 the sampler's
timestamps are exactly D / (N + 1) * (i + 1) for i = 0..N-1, strictly
increasing and strictly inside the open interval from 0 to D; and for
duration 11 and frameCount 10 they are exactly 1, 2, ..., 10 seconds. -/
theorem frameSampler_timestamps_spec (D : ℚ) (N : Nat) (hD : 0 < D) (_hN : 0 < N) :
    (∀ i, i < N →
      (frameTimestamps D N)[i]? = some (D / ((N : ℚ) + 1) * ((i : ℚ) + 1)))
    ∧ List.Pairwise (· < ·) (frameTimestamps D N)
    ∧ (∀ t ∈ frameTimestamps D N, 0 < t ∧ t < D)
    ∧ frameTimestamps 11 10 = [1, 2, 3, 4, 5, 6, 7, 8, 9, 10] := by
  refine ⟨?_, frameTimestamps_pairwise D N hD, frameTimestamps_mem_bounds D N hD, ?_⟩
  · intro i hi
    simp [frameTimestamps, List.getElem?_map, List.getElem?_range, hi]
  · have hr : List.range 10 = [0, 1, 2, 3, 4, 5, 6, 7, 8, 9] := rfl
    rw [frameTimestamps, hr]
    simp only [List.map_cons, List.map_nil]
    norm_num

/-- C1 witness: the theorem instantiated at the specification scenario of an
11 second clip sampled at 10 frames. -/
theorem frameSampler_timestamps_spec_witness :
    (0 : ℚ) < 11 ∧ 0 < 10 ∧
      frameTimestamps 11 10 = [1, 2, 3, 4, 5, 6, 7, 8, 9, 10] :=
  ⟨by norm_num, by norm_num,
    (frameSampler_timestamps_spec 11 10 (by norm_num) (by norm_num)).2.2.2⟩

/-- C2: a sampling call that resolves yields exactly frameCount frames, one
per seek timestamp and in timestamp order; it never resolves with a shorter
sequence. -/
theorem sampling_always_full (v : VideoModel) (n : Nat) (fs : List SampledFrame)
    (h : extractFramesCore v n = .ok fs) :
    fs.length = n ∧
      fs.map (fun f => f.timestampSeconds) = frameTimestamps v.duration n := by
  cases hl : v.load with
  | loadError =>
    simp only [extractFramesCore, hl] at h
    exact Except.noConfusion h
  | timedOut =>
    simp only [extractFramesCore, hl] at h
    exact Except.noConfusion h
  | metadataLoaded =>
    simp only [extractFramesCore, hl] at h
    obtain ⟨h1, h2, _h3⟩ := captureFrames_ok v _ fs h
    refine ⟨?_, h2⟩
    rw [h1]
    simp [frameTimestamps]

/-- C2 witness: a healthy three-frame sampling run resolves with exactly
three frames. -/
theorem sampling_always_full_witness :
    extractFramesCore vGood 3 = .ok framesW ∧ framesW.length = 3 :=
  ⟨rfl, (sampling_always_full vGood 3 framesW rfl).1⟩

/-- A successful first try completes immediately with one attempt. -/
theorem p0_step_ok (attempt : Nat → Except (List Char) AnalysisResult)
    (r : AnalysisResult) (h : attempt 0 = .ok r) :
    performAnalysisP0 attempt 0 = (.completed r, 1) := by
  unfold performAnalysisP0
  simp [h]

/-- A failed first try re-invokes the function with retryCount 1 and adds the
inner attempt count. -/
theorem p0_retry (attempt : Nat → Except (List Char) AnalysisResult)
    (e : List Char) (h : attempt 0 = .error e) :
    performAnalysisP0 attempt 0 =
      ((performAnalysisP0 attempt 1).1, (performAnalysisP0 attempt 1).2 + 1) := by
  unfold performAnalysisP0
  simp [h]
  unfold performAnalysisP0
  simp

/-- With retryCount 1 a successful try completes with one attempt. -/
theorem p0_step1_ok (attempt : Nat → Except (List Char) AnalysisResult)
    (r : AnalysisResult) (h : attempt 1 = .ok r) :
    performAnalysisP0 attempt 1 = (.completed r, 1) := by
  unfold performAnalysisP0
  simp [h]

/-- With retryCount 1 a failed try classifies the error and stops. -/
theorem p0_step1_err (attempt : Nat → Except (List Char) AnalysisResult)
    (f : List Char) (h : attempt 1 = .error f) :
    performAnalysisP0 attempt 1 = (.errorState (classifyP0 f), 1) := by
  unfold performAnalysisP0
  simp [h]

/-- C3: the part_000 analysis makes at most two attempts in total; when the
first attempt fails transiently and the second succeeds, the run completes
with the second result after exactly two attempts; when both attempts fail
transiently, the run surfaces the transient failure after exactly two
attempts. -/
theorem retry_semantics (attempt : Nat → Except (List Char) AnalysisResult) :
    (performAnalysisP0 attempt 0).2 ≤ 2
    ∧ (∀ e r, attempt 0 = .error e → attempt 1 = .ok r →
        performAnalysisP0 attempt 0 = (.completed r, 2))
    ∧ (∀ e f, attempt 0 = .error e → attempt 1 = .error f →
        classifyP0 e = .transientFailure → classifyP0 f = .transientFailure →
        performAnalysisP0 attempt 0 = (.errorState .transientFailure, 2)) := by
  refine ⟨?_, ?_, ?_⟩
  · cases h0 : attempt 0 with
    | ok r => rw [p0_step_ok attempt r h0]; norm_num
    | error e =>
      rw [p0_retry attempt e h0]
      cases h1 : attempt 1 with
      | ok r => rw [p0_step1_ok attempt r h1]
      | error f => rw [p0_step1_err attempt f h1]
  · intro e r h0 h1
    rw [p0_retry attempt e h0, p0_step1_ok attempt r h1]
  · intro e f h0 h1 _he hf
    rw [p0_retry attempt e h0, p0_step1_err attempt f h1, hf]

/-- C3 witness: a first transient failure followed by a success completes
with the second result after exactly two attempts. -/
theorem retry_semantics_witness :
    attemptW 0 = .error ("network glitch".toList) ∧
      attemptW 1 = .ok emptyAnalysis ∧
      performAnalysisP0 attemptW 0 = (.completed emptyAnalysis, 2) :=
  ⟨rfl, rfl, (retry_semantics attemptW).2.1 _ emptyAnalysis rfl rfl⟩

/-- C4 counterexample: the first attempt fails with an error text the code
itself classifies as rate limited, and a second attempt is still made (the
attempt counter reaches 2), so the failure is not surfaced immediately
without an automatic retry as the claim states. -/
theorem rateLimited_first_failure_is_retried :
    classifyP0 rateLimitedText = .rateLimited ∧
      (performAnalysisP0 attemptRateLimited 0).2 = 2 := by
  refine ⟨rfl, ?_⟩
  rw [p0_retry attemptRateLimited rateLimitedText rfl,
    p0_step1_err attemptRateLimited rateLimitedText rfl]

/-- C4 amended: the part_000 retry is unconditional on the failure kind; any
first-attempt failure, whatever its classification, triggers exactly one
automatic retry, and the failure is surfaced (by classifying the second
error) only after the second attempt; no re-authentication signal exists in
this variant. -/
theorem retry_unconditional (attempt : Nat → Except (List Char) AnalysisResult)
    (e : List Char) (h : attempt 0 = .error e) :
    (performAnalysisP0 attempt 0).2 = 2
    ∧ (∀ f, attempt 1 = .error f →
        performAnalysisP0 attempt 0 = (.errorState (classifyP0 f), 2)) := by
  constructor
  · rw [p0_retry attempt e h]
    cases h1 : attempt 1 with
    | ok r => rw [p0_step1_ok attempt r h1]
    | error f => rw [p0_step1_err attempt f h1]
  · intro f h1
    rw [p0_retry attempt e h, p0_step1_err attempt f h1]

/-- C4 witness: a run whose attempts both fail with the rate-limit text makes
two attempts and surfaces the rate-limited classification only then. -/
theorem retry_unconditional_witness :
    attemptRateLimited 0 = .error rateLimitedText ∧
      performAnalysisP0 attemptRateLimited 0 =
        (.errorState .rateLimited, 2) :=
  ⟨rfl, (retry_unconditional attemptRateLimited rateLimitedText rfl).2
    rateLimitedText rfl⟩

/-- C5 counterexample: the part_003 classifier, applied to the error text
Resource has been exhausted of the claim, reaches the generic fallback
branch, which the taxonomy calls TransientFailure, because the code matches
the substrings quota and limit and not exhausted or 429; so the claim that
this text yields RateLimited is false on this classifier. -/
theorem exhausted_not_rateLimited_in_classifier :
    classifyP3 ("Resource has been exhausted".toList) = .transientFailure ∧
      FailureKind.transientFailure ≠ FailureKind.rateLimited := by
  exact ⟨by decide, by decide⟩

/-- C5 amended: the part_003 classification is case-insensitive substring
matching with the keyword groups actually present in the code: safety,
blocked or candidate select ContentBlocked; otherwise quota or limit select
RateLimited; otherwise api key or unauthorized select CredentialInvalid;
anything else is the generic TransientFailure branch.  Under this classifier
the text API key not valid yields CredentialInvalid, while Resource has been
exhausted yields TransientFailure; only the part_000 variant maps the exact,
case-sensitive text Resource has been exhausted to RateLimited. -/
theorem classifier_branches :
    (∀ s, p3Blocked (toLowerL s) = true → classifyP3 s = .contentBlocked)
    ∧ (∀ s, p3Blocked (toLowerL s) = false → p3Rate (toLowerL s) = true →
        classifyP3 s = .rateLimited)
    ∧ (∀ s, p3Blocked (toLowerL s) = false → p3Rate (toLowerL s) = false →
        p3Cred (toLowerL s) = true → classifyP3 s = .credentialInvalid)
    ∧ (∀ s, p3Blocked (toLowerL s) = false → p3Rate (toLowerL s) = false →
        p3Cred (toLowerL s) = false → classifyP3 s = .transientFailure)
    ∧ classifyP3 ("API key not valid".toList) = .credentialInvalid
    ∧ classifyP0 ("Resource has been exhausted".toList) = .rateLimited := by
  refine ⟨?_, ?_, ?_, ?_, by decide, by decide⟩
  · intro s h
    simp [classifyP3, h]
  · intro s h1 h2
    simp [classifyP3, h1, h2]
  · intro s h1 h2 h3
    simp [classifyP3, h1, h2, h3]
  · intro s h1 h2 h3
    simp [classifyP3, h1, h2, h3]

/-- C5 witness: the rate-limited branch instantiated at a text containing the
keyword quota. -/
theorem classifier_branches_witness :
    p3Blocked (toLowerL ("Quota exceeded".toList)) = false ∧
      p3Rate (toLowerL ("Quota exceeded".toList)) = true ∧
      classifyP3 ("Quota exceeded".toList) = .rateLimited :=
  ⟨by decide, by decide,
    classifier_branches.2.1 ("Quota exceeded".toList) (by decide) (by decide)⟩

/-- Elements surviving dropWhile were in the original list. -/
theorem mem_of_mem_dropWhileL (f : Char → Bool) (l : List Char) :
    ∀ x ∈ l.dropWhile f, x ∈ l := by
  induction l with
  | nil => simp
  | cons a t ih =>
    intro x hx
    rw [List.dropWhile_cons] at hx
    by_cases ha : f a = true
    · rw [if_pos ha] at hx
      exact List.mem_cons_of_mem a (ih x hx)
    · rw [if_neg ha] at hx
      exact hx

/-- Dropping a prefix predicate across an append stops no later than a
failing element heading the right part. -/
theorem dropWhile_append_keep (f : Char → Bool) (a : List Char) (c : Char)
    (bs : List Char) (hc : f c = false) :
    List.dropWhile f (a ++ c :: bs) = List.dropWhile f a ++ c :: bs := by
  induction a with
  | nil => simp [List.dropWhile_cons, hc]
  | cons x xs ih =>
    by_cases hx : f x = true
    · simp only [List.cons_append, List.dropWhile_cons, hx, if_true, ih]
    · simp only [List.cons_append, List.dropWhile_cons, hx]
      simp

/-- The index search finds exactly the head of the right part when the
needle is absent from the left part, whatever the starting index. -/
theorem jsIndexOfAux_append (c : Char) (xs : List Char) (hx : c ∉ xs) :
    ∀ (ys : List Char) (k : Nat),
      jsIndexOfAux c (xs ++ c :: ys) k = some (k + xs.length) := by
  induction xs with
  | nil =>
    intro ys k
    simp [jsIndexOfAux]
  | cons x t ih =>
    intro ys k
    simp only [List.mem_cons, not_or] at hx
    have hxc : (x == c) = false := beq_eq_false_iff_ne.mpr (Ne.symm hx.1)
    rw [List.cons_append, jsIndexOfAux, if_neg (by simp [hxc]), ih hx.2 ys (k + 1)]
    congr 1
    simp
    omega

/-- The first occurrence of a character absent from the left part of an
append is at the length of that left part. -/
theorem jsIndexOf_append_cons (c : Char) (xs ys : List Char) (hx : c ∉ xs) :
    jsIndexOf c (xs ++ c :: ys) = some xs.length := by
  rw [jsIndexOf, jsIndexOfAux_append c xs hx ys 0]
  simp

/-- The last occurrence of a character absent from the right part of an
append is at the length of the left part. -/
theorem jsLastIndexOf_append_cons (c : Char) (xs ys : List Char) (hy : c ∉ ys) :
    jsLastIndexOf c (xs ++ c :: ys) = some xs.length := by
  have hys : c ∉ ys.reverse := by simpa using hy
  have hrev : (xs ++ c :: ys).reverse = ys.reverse ++ c :: xs.reverse := by
    simp
  rw [jsLastIndexOf, hrev, jsIndexOf_append_cons c ys.reverse xs.reverse hys]
  simp only [List.length_append, List.length_cons, List.length_reverse]
  congr 1
  omega

/-- Trimming a text whose middle starts with an opening brace and ends with a
closing brace only eats into the wrapping parts. -/
theorem jsTrim_shape (p m s : List Char) :
    jsTrim (p ++ (lbrace :: (m ++ [rbrace])) ++ s) =
      p.dropWhile isJsWs ++ (lbrace :: (m ++ [rbrace])) ++
        (s.reverse.dropWhile isJsWs).reverse := by
  unfold jsTrim
  rw [show p ++ (lbrace :: (m ++ [rbrace])) ++ s
      = p ++ lbrace :: (m ++ rbrace :: s) from by simp]
  rw [dropWhile_append_keep isJsWs p lbrace _ (by decide)]
  rw [show p.dropWhile isJsWs ++ lbrace :: (m ++ rbrace :: s)
      = (p.dropWhile isJsWs ++ lbrace :: m) ++ rbrace :: s from by simp]
  rw [show ((p.dropWhile isJsWs ++ lbrace :: m) ++ rbrace :: s).reverse
      = s.reverse ++ rbrace :: (p.dropWhile isJsWs ++ lbrace :: m).reverse from by simp]
  rw [dropWhile_append_keep isJsWs s.reverse rbrace _ (by decide)]
  simp

/-- Taking the middle slice of an append by its exact indices returns the
middle part. -/
theorem jsSubstring_middle (p j s : List Char) (hj : 1 ≤ j.length) :
    jsSubstring (p ++ j ++ s) p.length (p.length + j.length - 1 + 1) = j := by
  have hb : p.length + j.length - 1 + 1 = p.length + j.length := by omega
  rw [hb, jsSubstring, if_pos (by omega)]
  have ht : ((p ++ j) ++ s).take (p.length + j.length) = p ++ j :=
    List.take_left' (by simp)
  rw [ht]
  exact List.drop_left p j

/-- The slicing step recovers exactly the embedded object from wrapped text:
with no opening brace in the wrapping text before it and no closing brace in
the wrapping text after it, trimming, locating the outermost braces and
slicing return the object unchanged. -/
theorem sliceJson_extracts (p m s : List Char)
    (hp : lbrace ∉ p) (hs : rbrace ∉ s) :
    sliceJson (p ++ (lbrace :: (m ++ [rbrace])) ++ s) = lbrace :: (m ++ [rbrace]) := by
  have hp2 : lbrace ∉ p.dropWhile isJsWs := fun hx =>
    hp (mem_of_mem_dropWhileL isJsWs p lbrace hx)
  have hs2 : rbrace ∉ (s.reverse.dropWhile isJsWs).reverse := by
    intro hx
    rw [List.mem_reverse] at hx
    exact hs (by
      have := mem_of_mem_dropWhileL isJsWs s.reverse rbrace hx
      rwa [List.mem_reverse] at this)
  set p2 := p.dropWhile isJsWs with hp2def
  set s2 := (s.reverse.dropWhile isJsWs).reverse with hs2def
  have hfirst : jsIndexOf lbrace (p2 ++ (lbrace :: (m ++ [rbrace])) ++ s2) =
      some p2.length := by
    rw [show p2 ++ (lbrace :: (m ++ [rbrace])) ++ s2
        = p2 ++ lbrace :: (m ++ rbrace :: s2) from by simp]
    exact jsIndexOf_append_cons lbrace p2 (m ++ rbrace :: s2) hp2
  have hlast : jsLastIndexOf rbrace (p2 ++ (lbrace :: (m ++ [rbrace])) ++ s2) =
      some (p2.length + (lbrace :: (m ++ [rbrace])).length - 1) := by
    rw [show p2 ++ (lbrace :: (m ++ [rbrace])) ++ s2
        = (p2 ++ lbrace :: m) ++ rbrace :: s2 from by simp]
    rw [jsLastIndexOf_append_cons rbrace (p2 ++ lbrace :: m) s2 hs2]
    congr 1
    simp
  rw [sliceJson]
  rw [jsTrim_shape p m s]
  rw [hfirst, hlast]
  exact jsSubstring_middle p2 (lbrace :: (m ++ [rbrace])) s2 (by simp)

/-- C6: for a response text made of an embedded JSON object (opening with a
brace and closing with a brace) wrapped in incidental text, where the
wrapping text before it has no opening brace and the wrapping text after it
has no closing brace, the requester slices exactly the embedded object out,
and for any parser accepting that object the operation completes with the
parsed result after its single call. -/
theorem slice_parses_embedded_object (p j s : List Char)
    (hp : lbrace ∉ p) (hs : rbrace ∉ s)
    (hj1 : j.head? = some lbrace) (hj2 : j.getLast? = some rbrace) :
    sliceJson (p ++ j ++ s) = j
    ∧ ∀ (parse : List Char → Option AnalysisResult) (r : AnalysisResult),
        parse j = some r →
        performAnalysisP3 (fun _ => .ok (some (p ++ j ++ s))) parse =
          (.completed r, 1) := by
  obtain ⟨m, rfl⟩ : ∃ m, j = lbrace :: (m ++ [rbrace]) := by
    cases j with
    | nil => exact absurd hj1 (by simp)
    | cons x t =>
      have hx : x = lbrace := by simpa using hj1
      subst hx
      cases t with
      | nil =>
        have hbr : lbrace = rbrace := by simpa using hj2
        exact absurd hbr (by decide)
      | cons y u =>
        have hne : (y :: u) ≠ [] := by simp
        have hlast : (y :: u).getLast hne = rbrace := by
          have h1 : (lbrace :: y :: u).getLast? = (y :: u).getLast? :=
            List.getLast?_cons_cons
          rw [h1, List.getLast?_eq_getLast (y :: u) hne] at hj2
          simpa using hj2
        refine ⟨(y :: u).dropLast, ?_⟩
        have hdl := List.dropLast_append_getLast hne
        rw [hlast] at hdl
        rw [hdl]
  refine ⟨sliceJson_extracts p m s hp hs, ?_⟩
  intro parse r hparse
  have hslice := sliceJson_extracts p m s hp hs
  simp only [performAnalysisP3, Option.getD_some]
  have hne2 : (p ++ (lbrace :: (m ++ [rbrace])) ++ s).isEmpty = false := by
    simp [List.isEmpty_iff]
  rw [hne2]
  simp only [Bool.false_eq_true, if_false, hslice, hparse]

/-- C6 witness: the specification example, a score object wrapped in the
texts prefix and suffix, instantiated in the theorem. -/
theorem slice_parses_embedded_object_witness :
    (lbrace ∉ prefixW ∧ rbrace ∉ suffixW ∧ objW.head? = some lbrace ∧
      objW.getLast? = some rbrace) ∧
    sliceJson (prefixW ++ objW ++ suffixW) = objW ∧
    performAnalysisP3 (fun _ => .ok (some (prefixW ++ objW ++ suffixW))) parseW =
      (.completed scoreResult, 1) := by
  have h := slice_parses_embedded_object prefixW objW suffixW
    (by decide) (by decide) (by decide) (by decide)
  exact ⟨⟨by decide, by decide, by decide, by decide⟩, h.1,
    h.2 parseW scoreResult (by rfl)⟩

/-- C7: a nonempty response text that fails to parse after slicing (in
particular one holding no brace pair, which slicing leaves unchanged) makes
the part_003 operation fail with the malformed-response message carried as an
error-state value after its single external call; the pipeline is a total
function of the call outcome, so the failure is a value, not an uncaught
crash, and no automatic retry exists in this variant. -/
theorem malformed_response_fails_cleanly
    (call : Nat → Except (List Char) (Option (List Char)))
    (parse : List Char → Option AnalysisResult) (raw : List Char)
    (hcall : call 0 = .ok (some raw)) (hne : raw.isEmpty = false)
    (hparse : parse (sliceJson raw) = none) :
    performAnalysisP3 call parse = (.errorState p3MalformedMsg, 1) := by
  simp only [performAnalysisP3, hcall, Option.getD_some, hne, Bool.false_eq_true,
    if_false, hparse]
  have hmsg : p3CatchMessage p3MalformedMsg = p3MalformedMsg := by decide
  rw [hmsg]

/-- C7 witness: a brace-free response text with a parser that rejects it
yields the malformed-response error state in one call. -/
theorem malformed_response_fails_cleanly_witness :
    noJsonText.isEmpty = false ∧ parseNone (sliceJson noJsonText) = none ∧
      performAnalysisP3 (fun _ => .ok (some noJsonText)) parseNone =
        (.errorState p3MalformedMsg, 1) :=
  ⟨rfl, rfl, malformed_response_fails_cleanly _ parseNone noJsonText rfl rfl rfl⟩

/-- C8 counterexample: in the part_003 flash variant an absent response text
is replaced by an empty object literal before parsing (line 124 of part_003),
and with the platform parser behaviour on that literal the operation reports
success with an object holding no analysis fields, so the claim that an
empty response always fails with EmptyResponse is false there. -/
theorem empty_response_reports_success :
    performAnalysisFlash (.ok none) parseBraceStub = .completed emptyAnalysis := by
  decide

/-- C8 amended: the geminiService analyzeSurfVideo variant does fail on a
falsy (absent or empty) response text with the empty-response error before
any parsing; but the part_002 and part_003 performAnalysis variants
substitute an empty object literal for a falsy response text and report
success with whatever the parser yields for that literal. -/
theorem empty_response_behavior :
    (∀ parse, analyzeSurfVideo (.ok none) parse =
        .error ("Empty response from AI".toList))
    ∧ (∀ parse, analyzeSurfVideo (.ok (some [])) parse =
        .error ("Empty response from AI".toList))
    ∧ (∀ (parse : List Char → Option AnalysisResult) (r : AnalysisResult),
        parse braceEmpty = some r →
        performAnalysisFlash (.ok none) parse = .completed r) := by
  refine ⟨fun parse => rfl, fun parse => rfl, ?_⟩
  intro parse r hparse
  simp only [performAnalysisFlash, textOrNone, Option.getD_none, hparse]

/-- C8 amended witness: instantiated at the parser pinned to the platform
behaviour on the empty object literal. -/
theorem empty_response_behavior_witness :
    parseBraceStub braceEmpty = some emptyAnalysis ∧
      performAnalysisFlash (.ok none) parseBraceStub = .completed emptyAnalysis :=
  ⟨by decide, empty_response_behavior.2.2 parseBraceStub emptyAnalysis (by decide)⟩

/-- C9 counterexample: a sampling run whose capture loop throws at the first
seek rejects without revoking the temporary object URL, so the claim that
the temporary handle is released on every exit path is false on the part_002
variant. -/
theorem capture_error_leaks_object_url :
    (extractFramesP2 vCaptureFail).result = .error captureErrMsg ∧
      (extractFramesP2 vCaptureFail).urlRevoked = false := ⟨rfl, rfl⟩

/-- C9 amended: the part_002 sampling call revokes the object URL on the
success path and on the watchdog-timeout path, but the decoder-error exit
and the mid-capture exception exit reject without revoking it. -/
theorem url_release_on_exit_paths (v : VideoModel) :
    (isOkE (extractFramesP2 v).result = true → (extractFramesP2 v).urlRevoked = true)
    ∧ (v.load = .timedOut → (extractFramesP2 v).urlRevoked = true)
    ∧ (v.load = .loadError → (extractFramesP2 v).urlRevoked = false)
    ∧ (∀ e, v.load = .metadataLoaded →
        captureFrames v (frameTimestamps v.duration 12) = .error e →
        (extractFramesP2 v).urlRevoked = false) := by
  refine ⟨?_, ?_, ?_, ?_⟩
  · intro h
    cases hl : v.load with
    | timedOut => simp [extractFramesP2, hl]
    | loadError =>
      simp only [extractFramesP2, hl] at h
      simp [isOkE] at h
    | metadataLoaded =>
      simp only [extractFramesP2, hl] at h ⊢
      cases hc : captureFrames v (frameTimestamps v.duration 12) with
      | ok fs => simp [hc]
      | error e =>
        rw [hc] at h
        simp [isOkE] at h
  · intro hl
    simp [extractFramesP2, hl]
  · intro hl
    simp [extractFramesP2, hl]
  · intro e hl hc
    simp [extractFramesP2, hl, hc]

/-- C9 amended witness: the timeout path of a concrete run does revoke the
URL. -/
theorem url_release_on_exit_paths_witness :
    vTimeout.load = .timedOut ∧ (extractFramesP2 vTimeout).urlRevoked = true :=
  ⟨rfl, (url_release_on_exit_paths vTimeout).2.1 rfl⟩

/-- C10: in the size-routing upload handler a request is built with the
sampled JPEG frame parts exactly when the file exceeds 10 * 1024 * 1024
bytes (and sampling succeeded); otherwise it carries exactly one inline part
with the file payload and the file mime type; the two kinds never mix in one
request. -/
theorem upload_routing_by_size (file : FileModel) (parts : List InlinePart)
    (h : handleFileUploadParts file = .ok parts) :
    (file.size > 10 * 1024 * 1024 →
      ∃ fs, extractFramesCore file.video 12 = .ok fs ∧
        parts = fs.map frameToPart ∧ ∀ pa ∈ parts, pa.mimeType = jpegMime)
    ∧ (¬ file.size > 10 * 1024 * 1024 →
      parts = [⟨file.base64, file.mimeType⟩]) := by
  constructor
  · intro hbig
    rw [handleFileUploadParts, if_pos hbig] at h
    cases he : extractFramesCore file.video 12 with
    | error e => rw [he] at h; exact Except.noConfusion h
    | ok fs =>
      rw [he] at h
      refine ⟨fs, rfl, by cases h; rfl, ?_⟩
      cases h
      intro pa hpa
      rw [List.mem_map] at hpa
      obtain ⟨f, hf, rfl⟩ := hpa
      have hmime : ∀ g ∈ fs, g.mimeType = jpegMime := by
        cases hl : file.video.load with
        | loadError => simp only [extractFramesCore, hl] at he; exact Except.noConfusion he
        | timedOut => simp only [extractFramesCore, hl] at he; exact Except.noConfusion he
        | metadataLoaded =>
          simp only [extractFramesCore, hl] at he
          exact (captureFrames_ok file.video _ fs he).2.2
      exact hmime f hf
  · intro hsmall
    rw [handleFileUploadParts, if_neg hsmall] at h
    cases h
    rfl

/-- C10 witness: a file below the threshold is sent as one raw inline part
with its own payload and mime type. -/
theorem upload_routing_by_size_witness :
    handleFileUploadParts fileSmall =
        .ok [⟨"AAAA".toList, "video/mp4".toList⟩] ∧
      ¬ fileSmall.size > 10 * 1024 * 1024 ∧
      [(⟨"AAAA".toList, "video/mp4".toList⟩ : InlinePart)] =
        [⟨fileSmall.base64, fileSmall.mimeType⟩] :=
  ⟨rfl, by decide,
    (upload_routing_by_size fileSmall [⟨"AAAA".toList, "video/mp4".toList⟩]
      rfl).2 (by decide)⟩
